import Mathlib

/-!
# kubelog: pod selection, log capture, output routing and upload

A shallow embedding of `src/main.go`.  Go strings are Lean strings (one
character standing for one byte, which is exact on the ASCII alphabet of
Kubernetes object names).  Everything the program does to the outside world is
recorded as an `Event` in the `trace` of a `World`; everything the outside
world answers (log retrieval, file creation, HTTP) is an explicit input.
-/

namespace Kubelog

/-! ## Data model -/

/-- Colour escape constants of package `kubelogns/colors`, which is not under
`src/`: they are taken as parameters. -/
structure Colors where
  Reset : String
  Red : String
  Green : String
  Yellow : String
  Blue : String
  Purple : String
deriving DecidableEq, Repr

/-- The two fields of `corev1.Pod` that the program reads. -/
structure Pod where
  Namespace : String
  Name : String
deriving DecidableEq, Repr

/-- One observable action of the program. -/
inductive Event where
  | print (s : String)
  | getLogs (ns name : String)
  | mkdir (dir : String) (perm : Nat)
  | create (path : String)
  | writeFile (path data : String) (perm : Nat)
  | osOpen (path : String)
  | httpPost (url fileName fileData expires : String)
  | remove (path : String)
  | sleep (nanos : Nat)
  | close (file : Option String)
deriving DecidableEq, Repr

/-- The package-level variables of `main.go` (lines 28-31), the regular files
of the file system (path and content) and the actions performed so far. -/
structure World where
  fupServer : String
  didIWarnAlready : Bool
  files : List (String × String)
  trace : List Event
deriving DecidableEq, Repr

/-- Record one action at the end of the trace. -/
def World.emit (w : World) (e : Event) : World :=
  { w with trace := w.trace ++ [e] }

/-- The file system after `path` has been given the content `data`. -/
def writeTo (files : List (String × String)) (path data : String) : List (String × String) :=
  (path, data) :: files.filter (fun e => e.1 != path)

/-- The file system after `path` has been unlinked. -/
def unlink (files : List (String × String)) (path : String) : List (String × String) :=
  files.filter (fun e => e.1 != path)

/-- The answers of the multipart encoder and of the HTTP client during one call
of `uploadFile`: the error, if any, of each fallible step, and the body of the
response. -/
structure HttpEnv where
  formFileErr : Option String
  copyErr : Option String
  fieldErr : Option String
  requestErr : Option String
  doErr : Option String
  readErr : Option String
  responseBody : String
deriving DecidableEq, Repr

/-- One element of `pods.Items` together with what the outside world answers
while the loop of `main` processes it. -/
structure PodRun where
  pod : Pod
  rawLogs : Except String String
  createErr : Option String
  writeOk : Bool
  http : HttpEnv

/-! ## Library functions used by `main.go` -/

/-- Go `strings.Split(s, sep)` on characters, for a separator of one
character (the two calls of `main.go` pass "." and "\n"). -/
def splitChars (sep : Char) : List Char → List (List Char)
  | [] => [[]]
  | c :: cs =>
    if c = sep then [] :: splitChars sep cs
    else
      match splitChars sep cs with
      | [] => [[c]]
      | h :: t => (c :: h) :: t

/-- Go `strings.Split(s, sep)` for a separator of one character. -/
def stringsSplit (s : String) (sep : Char) : List String :=
  (splitChars sep s.data).map String.mk

/-- Modelled from the spec: inner loop of `fuzzy.Match` (not under `src/`), the
rest of `target` after the first occurrence of `r`, if there is one. -/
def dropThrough (r : Char) : List Char → Option (List Char)
  | [] => none
  | c :: t => if r = c then some t else dropThrough r t

/-- Modelled from the spec: outer loop of `fuzzy.Match` (not under `src/`),
every character of the source is looked up in what is left of the target. -/
def matchLoop : List Char → List Char → Bool
  | [], _ => true
  | r :: src, target =>
    match dropThrough r target with
    | none => false
    | some rest => matchLoop src rest

/-- Modelled from the spec: `fuzzy.Match` of `github.com/lithammer/fuzzysearch`
is imported by `main.go` and is not under `src/`.  Section 4.1 of the spec gives
it as the boolean, case-sensitive subsequence test.  The definition follows
the shape of the library function: a length check, a shortcut for equal
strings, then a greedy left-to-right scan. -/
def fuzzyMatch (source target : String) : Bool :=
  if target.length < source.length then false
  else if target.length = source.length ∧ source = target then true
  else matchLoop source.data target.data

/-! ## `getPodLogs` (lines 33-51) -/

/-- The line printed for one non-empty line `m` of a pod's log (line 47). -/
def echoLine (c : Colors) (pod : Pod) (m : String) : String :=
  c.Purple ++ "[" ++ pod.Name ++ "]" ++ c.Reset ++ ": " ++ m ++ "\n"

/-- The loop of lines 43-48. -/
def echoLines (c : Colors) (pod : Pod) (lines : List String) (w : World) : World :=
  lines.foldl (fun w m => if m.length < 1 then w else w.emit (.print (echoLine c pod m))) w

/-- Function `getPodLogs`; `raw` is the answer of `podLogs.Raw()`. -/
def getPodLogs (c : Colors) (pod : Pod) (raw : Except String String) (stdout : Bool)
    (w : World) : String × World :=
  let w1 := w.emit (.getLogs pod.Namespace pod.Name)
  match raw with
  | .error _ => ("Unable to get pod logs", w1)
  | .ok rawPodLogs =>
    if stdout then (rawPodLogs, echoLines c pod (stringsSplit rawPodLogs '\n') w1)
    else (rawPodLogs, w1)

/-! ## `uploadFile` (lines 53-106) -/

/-- The warning of line 58. -/
def warnMsg (c : Colors) : String :=
  c.Yellow ++ "WARN" ++ c.Reset ++
    ": No FUP server provided using default https://0x0.st (This UPLOADS Everything!!!) \n"

/-- Lines 55-63: the URL to post to, and the world after the warning. -/
def resolveUrl (c : Colors) (w : World) : String × World :=
  if w.fupServer = "" then
    if !w.didIWarnAlready then
      ("https://0x0.st", { w.emit (.print (warnMsg c)) with didIWarnAlready := true })
    else ("https://0x0.st", w)
  else (w.fupServer, w)

/-- Lines 69-105, once the file is open with content `data` and the URL is
known. -/
def sendFile (h : HttpEnv) (url filepath data : String) (expires : Int) (w : World) :
    (String × Option String) × World :=
  match h.formFileErr with
  | some e => (("", some e), w)
  | none =>
  match h.copyErr with
  | some e => (("", some e), w)
  | none =>
  match h.fieldErr with
  | some e => (("", some e), w)
  | none =>
  match h.requestErr with
  | some e => (("", some e), w)
  | none =>
  let w1 := w.emit (.httpPost url filepath data (toString expires))
  match h.doErr with
  | some e => (("", some e), w1)
  | none =>
  match h.readErr with
  | some e => (("", some e), w1)
  | none => ((h.responseBody, none), w1)

/-- Function `uploadFile`: the returned string and error, and the world
afterwards. -/
def uploadFile (c : Colors) (h : HttpEnv) (filepath : String) (expires : Int) (w : World) :
    (String × Option String) × World :=
  let w1 := w.emit (.osOpen filepath)
  let file := w1.files.lookup filepath
  let r := resolveUrl c w1
  match file with
  | none => (("", some "no such file or directory"), r.2)
  | some data => sendFile h r.1 filepath data expires r.2

/-! ## `main` (lines 108-187) -/

/-- The variables of `main` that the loop reads and writes: `filename`, the
stack of deferred calls, and the world. -/
structure LoopState where
  filename : String
  deferred : List Event
  world : World

/-- The condition of line 155: the pod is skipped. -/
def skips (fuzzymode name : String) : Bool :=
  !fuzzyMatch fuzzymode name && fuzzymode != ""

/-- Line 166. -/
def folderOf (filename : String) : String :=
  (stringsSplit filename '.').headD ""

/-- Line 167. -/
def podpathOf (filename : String) (pod : Pod) : String :=
  folderOf filename ++ "/" ++ pod.Namespace ++ "_" ++ filename

/-- The message of line 171. -/
def createErrMsg (c : Colors) (podpath err : String) : String :=
  c.Red ++ "ERR" ++ c.Reset ++ ": Error writing logs to " ++ podpath ++ ". " ++ err ++ "\n"

/-- The line of line 177. -/
def urlLine (c : Colors) (fupServer name url : String) : String :=
  c.Blue ++ fupServer ++ " - " ++ c.Purple ++ "( " ++ name ++ " )" ++ c.Reset ++ ": " ++ url ++ "\n"

/-- Lines 168-173: make the directory, create the file, report a failure. -/
def createFile (c : Colors) (filename : String) (pr : PodRun) (w : World) : World :=
  let w1 := (w.emit (.mkdir (folderOf filename) 0o755)).emit (.create (podpathOf filename pr.pod))
  match pr.createErr with
  | some err => w1.emit (.print (createErrMsg c (podpathOf filename pr.pod) err))
  | none => { w1 with files := writeTo w1.files (podpathOf filename pr.pod) "" }

/-- Line 174: capture without echo, then write the text to the file. -/
def writeLogs (c : Colors) (filename : String) (pr : PodRun) (w : World) : World :=
  let r := getPodLogs c pr.pod pr.rawLogs false w
  let w1 := r.2.emit (.writeFile (podpathOf filename pr.pod) r.1 0o644)
  if pr.writeOk then { w1 with files := writeTo w1.files (podpathOf filename pr.pod) r.1 } else w1

/-- Lines 176-181: upload, print the URL, remove the file when `filename` is
empty, sleep. -/
def uploadStep (c : Colors) (filename : String) (pr : PodRun) (w : World) : World :=
  let r := uploadFile c pr.http (podpathOf filename pr.pod) 1 w
  let w1 := r.2.emit (.print (urlLine c r.2.fupServer pr.pod.Name r.1.1))
  let w2 :=
    if filename = "" then
      { w1.emit (.remove (podpathOf filename pr.pod)) with
        files := unlink w1.files (podpathOf filename pr.pod) }
    else w1
  w2.emit (.sleep (1 * 1000000000))

/-- Lines 165-183, with `filename` as it is after line 164. -/
def persist (c : Colors) (upload : Bool) (filename : String) (pr : PodRun)
    (st : LoopState) : LoopState :=
  if filename ≠ "" then
    let w1 := createFile c filename pr st.world
    let file := match pr.createErr with
      | some _ => none
      | none => some (podpathOf filename pr.pod)
    let w2 := writeLogs c filename pr w1
    { filename := filename
      deferred := Event.close file :: st.deferred
      world := if upload then uploadStep c filename pr w2 else w2 }
  else { st with filename := filename }

/-- The body of the loop of line 154 for one pod. -/
def loopBody (c : Colors) (upload : Bool) (fuzzymode : String) (st : LoopState)
    (pr : PodRun) : LoopState :=
  if skips fuzzymode pr.pod.Name then st
  else if st.filename = "" ∧ upload = false then
    { st with world := (getPodLogs c pr.pod pr.rawLogs true st.world).2.emit (.print "---\n") }
  else
    persist c upload (if upload = true ∧ st.filename = "" then "tmp" else st.filename) pr st

/-- The loop of lines 154-185 over `pods.Items`. -/
def mainLoop (c : Colors) (upload : Bool) (fuzzymode : String) (st : LoopState)
    (pods : List PodRun) : LoopState :=
  pods.foldl (loopBody c upload fuzzymode) st

/-- The variables bound to command-line flags (lines 109-125). -/
structure Flags where
  printVersion : Bool
  kubeconfig : String
  namespace_ : String
  filename : String
  upload : Bool
  fuzzymode : String
deriving DecidableEq, Repr

/-- One flag given on the command line. -/
inductive Arg where
  | kubeconfig (v : String)
  | n (v : String)
  | o (v : String)
  | s (v : String)
  | u (b : Bool)
  | v (b : Bool)
  | f (v : String)
deriving DecidableEq, Repr

/-- The assignment a flag performs, following the variable each flag is bound
to in lines 116-125: both `-o` and `-s` are bound to `&filename`. -/
def setFlag (fl : Flags) : Arg → Flags
  | .kubeconfig v => { fl with kubeconfig := v }
  | .n v => { fl with namespace_ := v }
  | .o v => { fl with filename := v }
  | .s v => { fl with filename := v }
  | .u b => { fl with upload := b }
  | .v b => { fl with printVersion := b }
  | .f v => { fl with fuzzymode := v }

/-- The cluster and the client libraries as `main` sees them. -/
structure Cluster where
  home : String
  buildConfig : String → Option String
  clientsetErr : Option String
  defaultNamespace : String
  listPods : String → Except String (List PodRun)

/-- Lines 115-126: the defaults of the flags, then `flag.Parse()`. -/
def parseFlags (env : Cluster) (args : List Arg) : Flags :=
  args.foldl setFlag
    { printVersion := false
      kubeconfig := if env.home ≠ "" then env.home ++ "/.kube/config" else ""
      namespace_ := ""
      filename := ""
      upload := false
      fuzzymode := "" }

/-- Constant `VERSION`. -/
def VERSION : String := "1.0.3"

/-- Constant `AUTHOR`. -/
def AUTHOR : String := "https://github.com/itspacchu"

/-- The world when `main` starts: the initial values of lines 28-31. -/
def initWorld (files : List (String × String)) : World :=
  { fupServer := "", didIWarnAlready := false, files := files, trace := [] }

/-- The line printed before the loop (lines 149-153). -/
def headerLine (c : Colors) (fl : Flags) (namespace_ : String) : String :=
  if !fl.upload then
    c.Green ++ "INFO" ++ c.Reset ++ ": Fetching Pod logs for " ++ namespace_ ++ " namespace :\n"
  else
    c.Green ++ "INFO" ++ c.Reset ++ ": Writing Pod logs for " ++ namespace_ ++ " namespace to " ++
      fl.filename ++ ":\n"

/-- Lines 145-187, from the pod listing to the deferred calls that run when
`main` returns. -/
def runPods (c : Colors) (fl : Flags) (namespace_ : String) (pods : List PodRun)
    (w : World) : World :=
  let st := mainLoop c fl.upload fl.fuzzymode
    { filename := fl.filename, deferred := [], world := w.emit (.print (headerLine c fl namespace_)) }
    pods
  st.deferred.foldl World.emit st.world

/-- Function `main`: the final world, or the message of the panic. -/
def main (c : Colors) (env : Cluster) (args : List Arg) (files : List (String × String)) :
    Except String World :=
  let fl := parseFlags env args
  let w := initWorld files
  if fl.printVersion then
    .ok (w.emit (.print ("Version " ++ VERSION ++ "\nAuthor: " ++ AUTHOR ++ "\n")))
  else
    match env.buildConfig fl.kubeconfig with
    | some e => .error e
    | none =>
      let namespace_ := if fl.namespace_ = "" then env.defaultNamespace else fl.namespace_
      match env.clientsetErr with
      | some e => .error e
      | none =>
        match env.listPods namespace_ with
        | .error e => .error e
        | .ok pods => .ok (runPods c fl namespace_ pods w)

/-! ## Basic facts about the world -/

/-- The events of the loop of lines 43-48. -/
def echoEvents (c : Colors) (pod : Pod) (lines : List String) : List Event :=
  (lines.filter (fun m => !decide (m.length < 1))).map (fun m => Event.print (echoLine c pod m))

/-- The text `getPodLogs` returns. -/
def capturedText (raw : Except String String) : String :=
  match raw with
  | .error _ => "Unable to get pod logs"
  | .ok rawPodLogs => rawPodLogs

/-- The events `getPodLogs` performs. -/
def captureEvents (c : Colors) (pod : Pod) (raw : Except String String) (stdout : Bool) :
    List Event :=
  Event.getLogs pod.Namespace pod.Name ::
    (match raw with
     | .error _ => []
     | .ok rawPodLogs => if stdout then echoEvents c pod (stringsSplit rawPodLogs '\n') else [])

/-! ## The output path (claim C2) -/

/-- The directory name in the words of the spec: the part of the base name
before its first dot, all of it when there is no dot. -/
def dirName (b : String) : String :=
  String.mk (b.data.takeWhile (fun ch => ch != '.'))

/-! ## What each step adds to the world -/

/-- The warning `uploadFile` prints in world `w`, if any. -/
def warnEvents (c : Colors) (w : World) : List Event :=
  if w.fupServer = "" ∧ w.didIWarnAlready = false then [Event.print (warnMsg c)] else []

/-- The URL `uploadFile` posts to in world `w`. -/
def postUrl (w : World) : String :=
  if w.fupServer = "" then "https://0x0.st" else w.fupServer

/-- The request `sendFile` performs, if it gets as far as `client.Do`. -/
def sendEvents (h : HttpEnv) (url filepath data : String) (expires : Int) : List Event :=
  if h.formFileErr = none ∧ h.copyErr = none ∧ h.fieldErr = none ∧ h.requestErr = none then
    [Event.httpPost url filepath data (toString expires)]
  else []

/-- The events of one call of `uploadFile` in world `w`. -/
def uploadEvents (c : Colors) (h : HttpEnv) (filepath : String) (expires : Int) (w : World) :
    List Event :=
  Event.osOpen filepath :: (warnEvents c w ++
    (match w.files.lookup filepath with
     | none => []
     | some data => sendEvents h (postUrl w) filepath data expires))

/-- The files after lines 168-174 for one pod. -/
def persistFiles (filename : String) (pr : PodRun) (files : List (String × String)) :
    List (String × String) :=
  let f1 := match pr.createErr with
    | some _ => files
    | none => writeTo files (podpathOf filename pr.pod) ""
  if pr.writeOk then writeTo f1 (podpathOf filename pr.pod) (capturedText pr.rawLogs) else f1

/-- The events of lines 168-174 for one pod. -/
def writeEvents (c : Colors) (filename : String) (pr : PodRun) : List Event :=
  [Event.mkdir (folderOf filename) 0o755, Event.create (podpathOf filename pr.pod)] ++
    (match pr.createErr with
     | some err => [Event.print (createErrMsg c (podpathOf filename pr.pod) err)]
     | none => []) ++
    [Event.getLogs pr.pod.Namespace pr.pod.Name,
     Event.writeFile (podpathOf filename pr.pod) (capturedText pr.rawLogs) 0o644]

/-- The events of lines 176-181 for one pod when `filename` is not empty. -/
def uploadStepEvents (c : Colors) (filename : String) (pr : PodRun) (w : World) : List Event :=
  uploadEvents c pr.http (podpathOf filename pr.pod) 1 w ++
    [Event.print (urlLine c w.fupServer pr.pod.Name
        (uploadFile c pr.http (podpathOf filename pr.pod) 1 w).1.1),
     Event.sleep (1 * 1000000000)]

/-! ## One iteration of the loop -/

/-- The value of `filename` after lines 162-164. -/
def effName (upload : Bool) (filename : String) : String :=
  if upload = true ∧ filename = "" then "tmp" else filename

/-- The world after lines 168-174 for one pod. -/
def writtenWorld (c : Colors) (filename : String) (pr : PodRun) (w : World) : World :=
  { w with
    files := persistFiles filename pr w.files
    trace := w.trace ++ writeEvents c filename pr }

/-! ## Kinds of events -/

/-- A call of `os.WriteFile`. -/
def Event.isWriteFile : Event → Bool
  | .writeFile _ _ _ => true
  | _ => false

/-- A call of `time.Sleep`. -/
def Event.isSleep : Event → Bool
  | .sleep _ => true
  | _ => false

/-- A call of `os.Open`, the first statement of `uploadFile`. -/
def Event.isOpen : Event → Bool
  | .osOpen _ => true
  | _ => false

/-- A call of `GetLogs`, the request of `getPodLogs`. -/
def Event.isGetLogs : Event → Bool
  | .getLogs _ _ => true
  | _ => false

/-- A call of `os.Remove`. -/
def Event.isRemove : Event → Bool
  | .remove _ => true
  | _ => false

/-- An HTTP request. -/
def Event.isPost : Event → Bool
  | .httpPost _ _ _ _ => true
  | _ => false

/-- An operation on the file system. -/
def Event.isFileOp : Event → Bool
  | .mkdir _ _ => true
  | .create _ => true
  | .writeFile _ _ _ => true
  | .osOpen _ => true
  | .remove _ => true
  | .close _ => true
  | _ => false

/-! ## The text `uploadFile` returns (claim C5) -/

/-- White space in the sense of Go `strings.TrimSpace`, on ASCII. -/
def isSpace (ch : Char) : Bool :=
  ch = ' ' || ch = '\t' || ch = '\n' || ch = '\r' || ch = '\x0b' || ch = '\x0c'

/-- The claim's `trim`: the string without its leading and trailing white
space. -/
def trim (s : String) : String :=
  String.mk ((s.data.dropWhile isSpace).reverse.dropWhile isSpace).reverse

/-! ## Pacing (claim C8) -/

/-- The start of an upload attempt or a pause. -/
def Event.isPacing (e : Event) : Bool := e.isOpen || e.isSleep

/-! ## Console mode (claim C9) -/

/-- An operation on the file system, an HTTP request or a pause. -/
def Event.isOutputOp (e : Event) : Bool := e.isFileOp || e.isPost || e.isSleep

/-- One pod in console mode (lines 159-160): capture with echo, then the
separator line. -/
def consoleStep (c : Colors) (w : World) (pr : PodRun) : World :=
  (getPodLogs c pr.pod pr.rawLogs true w).2.emit (.print "---\n")

/-! ## The warning of `uploadFile` (claim C10) -/

/-- A sequence of calls of `uploadFile`, each with the answers of the outside
world, its path and its expiry. -/
def uploadCalls (c : Colors) (calls : List (HttpEnv × String × Int)) (w : World) : World :=
  calls.foldl (fun w x => (uploadFile c x.1 x.2.1 x.2.2 w).2) w

/-! ## The file of an upload without a name (claim C3) and the upload server (claim C4) -/

/-- Colours for the concrete runs: every constant is the empty string. -/
def plainColors : Colors := ⟨"", "", "", "", "", ""⟩

/-- A cluster for the concrete runs: the namespace ns1 holds the pod web-1,
whose log is the text hello; every call succeeds and the upload server answers
with a URL and a newline. -/
def oneGoodPod : Cluster :=
  { home := "/root"
    buildConfig := fun _ => none
    clientsetErr := none
    defaultNamespace := "ns1"
    listPods := fun _ =>
      .ok [⟨⟨"ns1", "web-1"⟩, .ok "hello", none, true,
            ⟨none, none, none, none, none, none, "https://0x0.st/abc.txt\n"⟩⟩] }

/-! ## Selection (claim C1) -/

theorem dropThrough_some_sublist (r : Char) :
    ∀ (target rest : List Char), dropThrough r target = some rest →
      (r :: rest).Sublist target := by
  intro target
  induction target with
  | nil => intro rest h; simp [dropThrough] at h
  | cons c t ih =>
    intro rest h
    by_cases hc : r = c
    · subst hc
      simp [dropThrough] at h
      subst h
      exact List.Sublist.refl _
    · simp [dropThrough, hc] at h
      exact (ih rest h).cons c

theorem dropThrough_of_sublist (r : Char) (s : List Char) :
    ∀ target : List Char, (r :: s).Sublist target →
      ∃ rest, dropThrough r target = some rest ∧ s.Sublist rest := by
  intro target
  induction target with
  | nil => intro h; simp at h
  | cons c t ih =>
    intro h
    by_cases hc : r = c
    · subst hc
      exact ⟨t, by simp [dropThrough], List.Sublist.of_cons_cons h⟩
    · have h2 : (r :: s).Sublist t := by
        cases h with
        | cons _ h1 => exact h1
        | cons₂ _ _ => exact absurd rfl hc
      obtain ⟨rest, h3, h4⟩ := ih h2
      exact ⟨rest, by simp [dropThrough, hc, h3], h4⟩

theorem matchLoop_iff_sublist :
    ∀ (src target : List Char), matchLoop src target = true ↔ src.Sublist target := by
  intro src
  induction src with
  | nil => intro target; simp [matchLoop]
  | cons r s ih =>
    intro target
    constructor
    · intro h
      unfold matchLoop at h
      cases hd : dropThrough r target with
      | none => rw [hd] at h; simp at h
      | some rest =>
        rw [hd] at h
        simp only at h
        exact ((ih rest).1 h).cons₂ r |>.trans (dropThrough_some_sublist r target rest hd)
    · intro h
      obtain ⟨rest, h1, h2⟩ := dropThrough_of_sublist r s target h
      unfold matchLoop
      rw [h1]
      exact (ih rest).2 h2

theorem fuzzyMatch_iff_sublist (p n : String) :
    fuzzyMatch p n = true ↔ p.data.Sublist n.data := by
  obtain ⟨ps⟩ := p
  obtain ⟨ns⟩ := n
  unfold fuzzyMatch
  simp only [String.length]
  by_cases h1 : ns.length < ps.length
  · simp only [h1, if_true]
    constructor
    · intro h; simp at h
    · intro h; exact absurd h.length_le (by omega)
  · simp only [h1, if_false]
    by_cases h2 : ns.length = ps.length ∧ String.mk ps = String.mk ns
    · simp only [h2, and_self, if_true, true_iff]
      have h3 : ps = ns := by injection h2.2
      rw [h3]
    · rw [if_neg h2]
      exact matchLoop_iff_sublist ps ns

theorem skips_false_iff (p n : String) : skips p n = false ↔ p.data.Sublist n.data := by
  rw [← fuzzyMatch_iff_sublist]
  unfold skips
  constructor
  · intro h
    by_cases hp : p = ""
    · subst hp
      rw [fuzzyMatch_iff_sublist]
      exact List.nil_sublist _
    · cases hm : fuzzyMatch p n with
      | true => rfl
      | false => simp [hm, hp] at h
  · intro h
    simp [h]

/-- C1: the loop of `main` selects a pod (the condition of line 155 is false)
exactly when the pattern is a subsequence of the pod name; the empty pattern
selects every name, a pattern longer than the name selects nothing, a pod that
is not selected leaves the state of the loop untouched, and on the pods
web-1, web-2, cache-1 the pattern w1 selects exactly web-1. -/
theorem C1_selection_iff_subsequence :
    (∀ p n : String, skips p n = false ↔ p.data.Sublist n.data) ∧
    (∀ n : String, skips "" n = false) ∧
    (∀ p n : String, n.length < p.length → skips p n = true) ∧
    (∀ (c : Colors) (upload : Bool) (p : String) (st : LoopState) (pr : PodRun),
      ¬ p.data.Sublist pr.pod.Name.data → loopBody c upload p st pr = st) ∧
    ["web-1", "web-2", "cache-1"].filter (fun n => !skips "w1" n) = ["web-1"] := by
  refine ⟨skips_false_iff, ?_, ?_, ?_, ?_⟩
  · intro n
    rw [skips_false_iff]
    exact List.nil_sublist _
  · intro p n h
    cases hs : skips p n with
    | true => rfl
    | false =>
      have h1 := ((skips_false_iff p n).1 hs).length_le
      obtain ⟨ps⟩ := p
      obtain ⟨ns⟩ := n
      simp only [String.length] at h
      simp only at h1
      omega
  · intro c upload p st pr h
    have hs : skips p pr.pod.Name = true := by
      cases hs : skips p pr.pod.Name with
      | true => rfl
      | false => exact absurd ((skips_false_iff _ _).1 hs) h
    simp [loopBody, hs]
  · decide

/-- Witness of C1 on the pattern w1, the name web-1 and the too long pattern
web-10. -/
theorem C1_selection_witness :
    skips "w1" "web-1" = false ∧ skips "web-10" "web-1" = true :=
  ⟨(C1_selection_iff_subsequence.1 "w1" "web-1").2 (by decide),
   C1_selection_iff_subsequence.2.2.1 "web-10" "web-1" (by decide)⟩

/-! ## Basic facts about the world: proofs -/

@[simp] theorem emit_trace (w : World) (e : Event) : (w.emit e).trace = w.trace ++ [e] := rfl

@[simp] theorem emit_files (w : World) (e : Event) : (w.emit e).files = w.files := rfl

@[simp] theorem emit_fupServer (w : World) (e : Event) : (w.emit e).fupServer = w.fupServer := rfl

@[simp] theorem emit_didIWarnAlready (w : World) (e : Event) :
    (w.emit e).didIWarnAlready = w.didIWarnAlready := rfl

theorem echoLines_eq (c : Colors) (pod : Pod) (lines : List String) (w : World) :
    echoLines c pod lines w = { w with trace := w.trace ++ echoEvents c pod lines } := by
  unfold echoLines
  induction lines generalizing w with
  | nil => simp [echoEvents]
  | cons m ms ih =>
    rw [List.foldl_cons, ih]
    by_cases hm : m.length < 1
    · have hm0 : m.length = 0 := by omega
      simp [echoEvents, List.filter_cons, hm0]
    · have hm0 : ¬ m.length = 0 := by omega
      simp [echoEvents, List.filter_cons, hm0, World.emit]

theorem getPodLogs_fst (c : Colors) (pod : Pod) (raw : Except String String) (stdout : Bool)
    (w : World) : (getPodLogs c pod raw stdout w).1 = capturedText raw := by
  unfold getPodLogs capturedText
  cases raw with
  | error e => rfl
  | ok s => cases stdout <;> rfl

theorem getPodLogs_snd (c : Colors) (pod : Pod) (raw : Except String String) (stdout : Bool)
    (w : World) :
    (getPodLogs c pod raw stdout w).2 =
      { w with trace := w.trace ++ captureEvents c pod raw stdout } := by
  unfold getPodLogs captureEvents
  cases raw with
  | error e => rfl
  | ok s =>
    cases stdout
    · simp [World.emit]
    · simp [echoLines_eq, World.emit]

/-! ## The output path (claim C2): proofs -/

theorem splitChars_head (sep : Char) (l : List Char) :
    (splitChars sep l).headD [] = l.takeWhile (fun ch => ch != sep) := by
  induction l with
  | nil => rfl
  | cons ch cs ih =>
    unfold splitChars
    by_cases h : ch = sep
    · simp [h]
    · have hne : (ch != sep) = true := by simp [h]
      simp only [h, if_false]
      rw [List.takeWhile_cons, hne, if_pos rfl, ← ih]
      cases hs : splitChars sep cs with
      | nil => rfl
      | cons x t => rfl

theorem folderOf_eq_dirName (b : String) : folderOf b = dirName b := by
  unfold folderOf dirName stringsSplit
  rw [← splitChars_head]
  cases splitChars '.' b.data with
  | nil => rfl
  | cons x t => rfl

theorem podpathOf_eq (b : String) (pod : Pod) :
    podpathOf b pod = dirName b ++ "/" ++ pod.Namespace ++ "_" ++ b := by
  unfold podpathOf
  rw [folderOf_eq_dirName]

/-! ## What each step adds to the world: proofs -/

theorem resolveUrl_fst (c : Colors) (w : World) : (resolveUrl c w).1 = postUrl w := by
  unfold resolveUrl postUrl
  split_ifs <;> rfl

theorem resolveUrl_snd (c : Colors) (w : World) :
    (resolveUrl c w).2 =
      { w with
        didIWarnAlready := w.didIWarnAlready || decide (w.fupServer = "")
        trace := w.trace ++ warnEvents c w } := by
  obtain ⟨fup, warned, files, trace⟩ := w
  unfold resolveUrl warnEvents
  by_cases h1 : fup = ""
  · cases warned <;> simp [h1, World.emit]
  · simp [h1]

theorem sendFile_snd (h : HttpEnv) (url filepath data : String) (expires : Int) (w : World) :
    (sendFile h url filepath data expires w).2 =
      { w with trace := w.trace ++ sendEvents h url filepath data expires } := by
  obtain ⟨e1, e2, e3, e4, e5, e6, body⟩ := h
  unfold sendFile sendEvents
  cases e1 <;> cases e2 <;> cases e3 <;> cases e4 <;> cases e5 <;> cases e6 <;>
    simp [World.emit]

theorem uploadFile_snd (c : Colors) (h : HttpEnv) (filepath : String) (expires : Int)
    (w : World) :
    (uploadFile c h filepath expires w).2 =
      { w with
        didIWarnAlready := w.didIWarnAlready || decide (w.fupServer = "")
        trace := w.trace ++ uploadEvents c h filepath expires w } := by
  unfold uploadFile uploadEvents
  simp only [emit_files]
  cases hl : w.files.lookup filepath with
  | none =>
    simp only [resolveUrl_snd]
    simp [warnEvents, World.emit]
  | some data =>
    simp only [sendFile_snd, resolveUrl_snd, resolveUrl_fst]
    simp [warnEvents, postUrl, World.emit]

theorem writeLogs_createFile (c : Colors) (filename : String) (pr : PodRun) (w : World) :
    writeLogs c filename pr (createFile c filename pr w) =
      { w with
        files := persistFiles filename pr w.files
        trace := w.trace ++ writeEvents c filename pr } := by
  unfold writeLogs createFile persistFiles writeEvents
  simp only [getPodLogs_fst, getPodLogs_snd, captureEvents]
  cases pr.createErr <;> cases pr.writeOk <;> cases pr.rawLogs <;> simp [World.emit]

theorem uploadStep_eq (c : Colors) (filename : String) (pr : PodRun) (w : World)
    (hf : filename ≠ "") :
    uploadStep c filename pr w =
      { w with
        didIWarnAlready := w.didIWarnAlready || decide (w.fupServer = "")
        trace := w.trace ++ uploadStepEvents c filename pr w } := by
  unfold uploadStep uploadStepEvents
  simp only [uploadFile_snd, if_neg hf]
  simp [World.emit]

/-! ## One iteration of the loop: proofs -/

theorem effName_ne (upload : Bool) (filename : String)
    (hmode : ¬ (filename = "" ∧ upload = false)) : effName upload filename ≠ "" := by
  unfold effName
  by_cases h : upload = true ∧ filename = ""
  · rw [if_pos h]; decide
  · rw [if_neg h]
    intro hf
    cases upload
    · exact hmode ⟨hf, rfl⟩
    · exact h ⟨rfl, hf⟩

theorem effName_idem (upload : Bool) (filename : String) :
    effName upload (effName upload filename) = effName upload filename := by
  unfold effName
  by_cases h : upload = true ∧ filename = ""
  · rw [if_pos h]
    have : ¬ (upload = true ∧ "tmp" = "") := by
      intro h2
      exact absurd h2.2 (by decide)
    rw [if_neg this]
  · rw [if_neg h, if_neg h]

theorem loopBody_skip (c : Colors) (upload : Bool) (fz : String) (st : LoopState) (pr : PodRun)
    (hs : skips fz pr.pod.Name = true) : loopBody c upload fz st pr = st := by
  simp [loopBody, hs]

theorem loopBody_console (c : Colors) (fz : String) (st : LoopState) (pr : PodRun)
    (hs : skips fz pr.pod.Name = false) (hf : st.filename = "") :
    loopBody c false fz st pr =
      { st with
        world :=
          { st.world with
            trace := st.world.trace ++
              (captureEvents c pr.pod pr.rawLogs true ++ [Event.print "---\n"]) } } := by
  simp [loopBody, hs, hf, getPodLogs_snd, World.emit]

theorem loopBody_persist (c : Colors) (upload : Bool) (fz : String) (st : LoopState)
    (pr : PodRun) (hs : skips fz pr.pod.Name = false)
    (hmode : ¬ (st.filename = "" ∧ upload = false)) :
    loopBody c upload fz st pr =
      { filename := effName upload st.filename
        deferred :=
          Event.close (match pr.createErr with
            | some _ => none
            | none => some (podpathOf (effName upload st.filename) pr.pod)) :: st.deferred
        world :=
          if upload then
            uploadStep c (effName upload st.filename) pr
              (writtenWorld c (effName upload st.filename) pr st.world)
          else writtenWorld c (effName upload st.filename) pr st.world } := by
  have hne := effName_ne upload st.filename hmode
  unfold loopBody
  rw [if_neg (by simp [hs]), if_neg hmode]
  unfold persist
  rw [show (if upload = true ∧ st.filename = "" then "tmp" else st.filename)
      = effName upload st.filename from rfl]
  rw [if_pos hne]
  simp only [writeLogs_createFile]
  rfl

theorem loopBody_persist_trace (c : Colors) (upload : Bool) (fz : String) (st : LoopState)
    (pr : PodRun) (hs : skips fz pr.pod.Name = false)
    (hmode : ¬ (st.filename = "" ∧ upload = false)) :
    (loopBody c upload fz st pr).world.trace =
      st.world.trace ++ (writeEvents c (effName upload st.filename) pr ++
        (if upload then
          uploadStepEvents c (effName upload st.filename) pr
            (writtenWorld c (effName upload st.filename) pr st.world)
         else [])) := by
  rw [loopBody_persist c upload fz st pr hs hmode]
  cases upload
  · simp [writtenWorld]
  · simp only [if_true]
    rw [uploadStep_eq _ _ _ _ (effName_ne true st.filename hmode)]
    simp [writtenWorld]

theorem loopBody_persist_files (c : Colors) (upload : Bool) (fz : String) (st : LoopState)
    (pr : PodRun) (hs : skips fz pr.pod.Name = false)
    (hmode : ¬ (st.filename = "" ∧ upload = false)) :
    (loopBody c upload fz st pr).world.files =
      persistFiles (effName upload st.filename) pr st.world.files := by
  rw [loopBody_persist c upload fz st pr hs hmode]
  cases upload
  · simp [writtenWorld]
  · simp only [if_true]
    rw [uploadStep_eq _ _ _ _ (effName_ne true st.filename hmode)]
    simp [writtenWorld]

theorem loopBody_persist_filename (c : Colors) (upload : Bool) (fz : String) (st : LoopState)
    (pr : PodRun) (hs : skips fz pr.pod.Name = false)
    (hmode : ¬ (st.filename = "" ∧ upload = false)) :
    (loopBody c upload fz st pr).filename = effName upload st.filename := by
  rw [loopBody_persist c upload fz st pr hs hmode]

/-! ## Kinds of events: proofs -/

theorem mem_uploadEvents (c : Colors) (h : HttpEnv) (filepath : String) (expires : Int)
    (w : World) (e : Event) (he : e ∈ uploadEvents c h filepath expires w) :
    e = Event.osOpen filepath ∨ e = Event.print (warnMsg c) ∨
      ∃ data, e = Event.httpPost (postUrl w) filepath data (toString expires) := by
  unfold uploadEvents at he
  rcases List.mem_cons.1 he with h1 | h1
  · exact Or.inl h1
  · rcases List.mem_append.1 h1 with h2 | h2
    · unfold warnEvents at h2
      split_ifs at h2
      · exact Or.inr (Or.inl (List.mem_singleton.1 h2))
      · simp at h2
    · cases hl : w.files.lookup filepath with
      | none => rw [hl] at h2; simp at h2
      | some data =>
        rw [hl] at h2
        simp only [sendEvents] at h2
        split_ifs at h2
        · exact Or.inr (Or.inr ⟨data, List.mem_singleton.1 h2⟩)
        · simp at h2

theorem uploadEvents_filter (c : Colors) (h : HttpEnv) (filepath : String) (expires : Int)
    (w : World) (p : Event → Bool) (h1 : ∀ s, p (Event.osOpen s) = false)
    (h2 : ∀ s, p (Event.print s) = false) (h3 : ∀ a b d e, p (Event.httpPost a b d e) = false) :
    (uploadEvents c h filepath expires w).filter p = [] := by
  rw [List.filter_eq_nil_iff]
  intro e he
  rcases mem_uploadEvents c h filepath expires w e he with h4 | h4 | ⟨data, h4⟩ <;>
    subst h4 <;> simp [h1, h2, h3]

theorem writeEvents_filter_writeFile (c : Colors) (filename : String) (pr : PodRun) :
    (writeEvents c filename pr).filter Event.isWriteFile =
      [Event.writeFile (podpathOf filename pr.pod) (capturedText pr.rawLogs) 0o644] := by
  unfold writeEvents
  cases pr.createErr <;> simp [List.filter_cons, Event.isWriteFile]

theorem loopBody_filter_writeFile (c : Colors) (upload : Bool) (fz : String) (st : LoopState)
    (pr : PodRun) (hs : skips fz pr.pod.Name = false)
    (hmode : ¬ (st.filename = "" ∧ upload = false)) :
    (loopBody c upload fz st pr).world.trace.filter Event.isWriteFile =
      st.world.trace.filter Event.isWriteFile ++
        [Event.writeFile (podpathOf (effName upload st.filename) pr.pod)
          (capturedText pr.rawLogs) 0o644] := by
  rw [loopBody_persist_trace c upload fz st pr hs hmode, List.filter_append,
    List.filter_append, writeEvents_filter_writeFile]
  cases upload
  · simp
  · simp only [if_true]
    unfold uploadStepEvents
    rw [List.filter_append, uploadEvents_filter _ _ _ _ _ _ (fun _ => rfl) (fun _ => rfl)
      (fun _ _ _ _ => rfl)]
    simp [List.filter_cons, Event.isWriteFile]

/-- C2: the path of the file the loop writes a pod's log to is the directory
name (the base name up to its first dot), a slash, the namespace of the pod, an
underscore and the base name; with a non-empty base name in `filename`, the
one call of `os.WriteFile` an iteration adds for a selected pod is on that
path; logs.txt in namespace default gives logs/default_logs.txt and report
gives report/default_report. -/
theorem C2_output_path :
    (∀ (b : String) (pod : Pod),
      podpathOf b pod = dirName b ++ "/" ++ pod.Namespace ++ "_" ++ b) ∧
    (∀ (c : Colors) (upload : Bool) (fz b : String) (st : LoopState) (pr : PodRun),
      b ≠ "" → st.filename = b → skips fz pr.pod.Name = false →
      (loopBody c upload fz st pr).world.trace.filter Event.isWriteFile =
        st.world.trace.filter Event.isWriteFile ++
          [Event.writeFile (dirName b ++ "/" ++ pr.pod.Namespace ++ "_" ++ b)
            (capturedText pr.rawLogs) 0o644]) ∧
    podpathOf "logs.txt" ⟨"default", "web-1"⟩ = "logs/default_logs.txt" ∧
    podpathOf "report" ⟨"default", "web-1"⟩ = "report/default_report" := by
  refine ⟨podpathOf_eq, ?_, by decide, by decide⟩
  intro c upload fz b st pr hb hf hs
  have hmode : ¬ (st.filename = "" ∧ upload = false) := fun h => hb (hf ▸ h.1)
  have hn : effName upload st.filename = b := by
    unfold effName
    rw [if_neg (fun h => hb (hf ▸ h.2)), hf]
  rw [loopBody_filter_writeFile c upload fz st pr hs hmode, hn, podpathOf_eq]

/-- Witness of C2: one iteration with `filename` logs.txt on a pod of
namespace default. -/
theorem C2_output_path_witness :
    (loopBody ⟨"", "", "", "", "", ""⟩ false "" ⟨"logs.txt", [], ⟨"", false, [], []⟩⟩
        ⟨⟨"default", "web-1"⟩, .ok "line", none, true,
          ⟨none, none, none, none, none, none, ""⟩⟩).world.trace.filter Event.isWriteFile =
      [Event.writeFile "logs/default_logs.txt" "line" 0o644] :=
  C2_output_path.2.1 ⟨"", "", "", "", "", ""⟩ false "" "logs.txt"
    ⟨"logs.txt", [], ⟨"", false, [], []⟩⟩
    ⟨⟨"default", "web-1"⟩, .ok "line", none, true, ⟨none, none, none, none, none, none, ""⟩⟩
    (by decide) rfl (by decide)

/-! ## The text `uploadFile` returns (claim C5): proofs -/

/-- C5, amended: when `uploadFile` returns no error, the string it returns is
the body of the HTTP response, unchanged. -/
theorem C5_upload_returns_body (c : Colors) (h : HttpEnv) (filepath : String) (expires : Int)
    (w : World) (hok : (uploadFile c h filepath expires w).1.2 = none) :
    (uploadFile c h filepath expires w).1.1 = h.responseBody := by
  obtain ⟨e1, e2, e3, e4, e5, e6, body⟩ := h
  unfold uploadFile at hok ⊢
  simp only [emit_files] at hok ⊢
  cases hl : w.files.lookup filepath with
  | none => simp [hl] at hok
  | some data =>
    simp only [hl] at hok ⊢
    unfold sendFile at hok ⊢
    cases e1 <;> cases e2 <;> cases e3 <;> cases e4 <;> cases e5 <;> cases e6 <;>
      simp at hok ⊢

/-- Witness of the amended C5: an upload that succeeds with a response body
that ends in a newline returns the newline too. -/
theorem C5_upload_returns_body_witness :
    (uploadFile ⟨"", "", "", "", "", ""⟩
        ⟨none, none, none, none, none, none, "https://0x0.st/abc.txt\n"⟩ "tmp/ns_tmp" 1
        ⟨"", false, [("tmp/ns_tmp", "log")], []⟩).1.1 = "https://0x0.st/abc.txt\n" :=
  C5_upload_returns_body ⟨"", "", "", "", "", ""⟩
    ⟨none, none, none, none, none, none, "https://0x0.st/abc.txt\n"⟩ "tmp/ns_tmp" 1
    ⟨"", false, [("tmp/ns_tmp", "log")], []⟩ (by decide)

/-- Counterexample to C5 as stated: a successful upload whose response body is
a URL followed by a newline returns the body with the newline, which is not
the trimmed body. -/
theorem C5_counterexample_untrimmed :
    (uploadFile ⟨"", "", "", "", "", ""⟩
        ⟨none, none, none, none, none, none, "https://0x0.st/abc.txt\n"⟩ "tmp/ns_tmp" 1
        ⟨"", false, [("tmp/ns_tmp", "log")], []⟩).1 = ("https://0x0.st/abc.txt\n", none) ∧
    trim "https://0x0.st/abc.txt\n" = "https://0x0.st/abc.txt" ∧
    (uploadFile ⟨"", "", "", "", "", ""⟩
        ⟨none, none, none, none, none, none, "https://0x0.st/abc.txt\n"⟩ "tmp/ns_tmp" 1
        ⟨"", false, [("tmp/ns_tmp", "log")], []⟩).1.1 ≠ trim "https://0x0.st/abc.txt\n" := by
  decide

/-! ## Capture (claim C6) -/

theorem echoEvents_filter (c : Colors) (pod : Pod) (lines : List String) (p : Event → Bool)
    (h2 : ∀ s, p (Event.print s) = false) : (echoEvents c pod lines).filter p = [] := by
  rw [List.filter_eq_nil_iff]
  intro e he
  unfold echoEvents at he
  obtain ⟨m, _, hm⟩ := List.mem_map.1 he
  subst hm
  simp [h2]

theorem uploadStepEvents_filter (c : Colors) (filename : String) (pr : PodRun) (w : World)
    (p : Event → Bool) (h1 : ∀ s, p (Event.osOpen s) = false)
    (h2 : ∀ s, p (Event.print s) = false) (h3 : ∀ a b d e, p (Event.httpPost a b d e) = false)
    (h4 : ∀ n, p (Event.sleep n) = false) :
    (uploadStepEvents c filename pr w).filter p = [] := by
  unfold uploadStepEvents
  rw [List.filter_append, uploadEvents_filter _ _ _ _ _ _ h1 h2 h3]
  simp [List.filter_cons, h2, h4]

theorem loopBody_filter_getLogs (c : Colors) (upload : Bool) (fz : String) (st : LoopState)
    (pr : PodRun) :
    (loopBody c upload fz st pr).world.trace.filter Event.isGetLogs =
      st.world.trace.filter Event.isGetLogs ++
        (if skips fz pr.pod.Name then [] else [Event.getLogs pr.pod.Namespace pr.pod.Name]) := by
  cases hs : skips fz pr.pod.Name with
  | true => rw [loopBody_skip c upload fz st pr hs]; simp
  | false =>
    by_cases hmode : st.filename = "" ∧ upload = false
    · obtain ⟨hf, hu⟩ := hmode
      subst hu
      rw [loopBody_console c fz st pr hs hf]
      simp only [List.filter_append]
      unfold captureEvents
      cases pr.rawLogs with
      | error e => simp [List.filter_cons, Event.isGetLogs]
      | ok s =>
        simp only [if_true, List.filter_cons, Event.isGetLogs]
        rw [echoEvents_filter _ _ _ _ (fun _ => rfl)]
        simp
    · rw [loopBody_persist_trace c upload fz st pr hs hmode]
      simp only [List.filter_append]
      have hw : (writeEvents c (effName upload st.filename) pr).filter Event.isGetLogs =
          [Event.getLogs pr.pod.Namespace pr.pod.Name] := by
        unfold writeEvents
        cases pr.createErr <;> simp [List.filter_cons, Event.isGetLogs]
      rw [hw]
      cases upload
      · simp
      · simp only [if_true]
        rw [uploadStepEvents_filter _ _ _ _ _ (fun _ => rfl) (fun _ => rfl)
          (fun _ _ _ _ => rfl) (fun _ => rfl)]
        simp

theorem mainLoop_filter_getLogs (c : Colors) (upload : Bool) (fz : String) (pods : List PodRun) :
    ∀ st : LoopState,
      (mainLoop c upload fz st pods).world.trace.filter Event.isGetLogs =
        st.world.trace.filter Event.isGetLogs ++
          (pods.filter (fun pr => !skips fz pr.pod.Name)).map
            (fun pr => Event.getLogs pr.pod.Namespace pr.pod.Name) := by
  induction pods with
  | nil => intro st; simp [mainLoop]
  | cons pr rest ih =>
    intro st
    have h := ih (loopBody c upload fz st pr)
    unfold mainLoop at h ⊢
    rw [List.foldl_cons, h, loopBody_filter_getLogs]
    cases hs : skips fz pr.pod.Name <;> simp [List.filter_cons, hs]

/-- C6: when the retrieval fails, `getPodLogs` returns the text
"Unable to get pod logs" and does nothing but the request (no print), for both
values of `stdout`; when it succeeds it returns the retrieved text unchanged;
and the loop of `main` requests the logs of every selected pod, in listing
order, whatever the retrievals before it gave. -/
theorem C6_getPodLogs_sentinel :
    (∀ (c : Colors) (pod : Pod) (e : String) (stdout : Bool) (w : World),
      getPodLogs c pod (.error e) stdout w =
        ("Unable to get pod logs", w.emit (.getLogs pod.Namespace pod.Name))) ∧
    (∀ (c : Colors) (pod : Pod) (s : String) (stdout : Bool) (w : World),
      (getPodLogs c pod (.ok s) stdout w).1 = s) ∧
    (∀ (c : Colors) (upload : Bool) (fz : String) (st : LoopState) (pods : List PodRun),
      (mainLoop c upload fz st pods).world.trace.filter Event.isGetLogs =
        st.world.trace.filter Event.isGetLogs ++
          (pods.filter (fun pr => !skips fz pr.pod.Name)).map
            (fun pr => Event.getLogs pr.pod.Namespace pr.pod.Name)) := by
  refine ⟨?_, ?_, ?_⟩
  · intro c pod e stdout w
    rfl
  · intro c pod s stdout w
    rw [getPodLogs_fst]
    rfl
  · intro c upload fz st pods
    exact mainLoop_filter_getLogs c upload fz pods st

/-! ## The loop as a whole -/

theorem loopBody_effName (c : Colors) (upload : Bool) (fz : String) (st : LoopState)
    (pr : PodRun) :
    effName upload (loopBody c upload fz st pr).filename = effName upload st.filename := by
  cases hs : skips fz pr.pod.Name with
  | true => rw [loopBody_skip c upload fz st pr hs]
  | false =>
    by_cases hmode : st.filename = "" ∧ upload = false
    · obtain ⟨hf, hu⟩ := hmode
      subst hu
      rw [loopBody_console c fz st pr hs hf]
    · rw [loopBody_persist_filename c upload fz st pr hs hmode, effName_idem]

theorem mainLoop_effName (c : Colors) (upload : Bool) (fz : String) (pods : List PodRun) :
    ∀ st : LoopState,
      effName upload (mainLoop c upload fz st pods).filename = effName upload st.filename := by
  induction pods with
  | nil => intro st; rfl
  | cons pr rest ih =>
    intro st
    have h := ih (loopBody c upload fz st pr)
    unfold mainLoop at h ⊢
    rw [List.foldl_cons, h, loopBody_effName]

theorem mainLoop_filter (c : Colors) (upload : Bool) (fz : String) (p : Event → Bool)
    (g : PodRun → List Event) (name : String)
    (hstep : ∀ (st : LoopState) (pr : PodRun), effName upload st.filename = name →
      (loopBody c upload fz st pr).world.trace.filter p = st.world.trace.filter p ++ g pr)
    (pods : List PodRun) :
    ∀ st : LoopState, effName upload st.filename = name →
      (mainLoop c upload fz st pods).world.trace.filter p =
        st.world.trace.filter p ++ pods.flatMap g := by
  induction pods with
  | nil => intro st _; simp [mainLoop]
  | cons pr rest ih =>
    intro st hst
    have h := ih (loopBody c upload fz st pr) (by rw [loopBody_effName, hst])
    unfold mainLoop at h ⊢
    rw [List.foldl_cons, h, hstep st pr hst, List.flatMap_cons, List.append_assoc]

theorem flatMap_selected (fz : String) (g : PodRun → List Event) (pods : List PodRun) :
    pods.flatMap (fun pr => if skips fz pr.pod.Name then [] else g pr) =
      (pods.filter (fun pr => !skips fz pr.pod.Name)).flatMap g := by
  induction pods with
  | nil => rfl
  | cons pr rest ih =>
    rw [List.flatMap_cons, ih]
    cases hs : skips fz pr.pod.Name <;> simp [List.filter_cons, hs]

theorem flatMap_single (f : PodRun → Event) (sel : List PodRun) :
    sel.flatMap (fun pr => [f pr]) = sel.map f := by
  induction sel with
  | nil => rfl
  | cons pr rest ih => rw [List.flatMap_cons, ih]; rfl

theorem foldl_emit_trace (evs : List Event) :
    ∀ w : World, (evs.foldl World.emit w).trace = w.trace ++ evs := by
  induction evs with
  | nil => intro w; simp
  | cons e rest ih => intro w; rw [List.foldl_cons, ih]; simp

theorem foldl_emit_files (evs : List Event) :
    ∀ w : World, (evs.foldl World.emit w).files = w.files := by
  induction evs with
  | nil => intro w; rfl
  | cons e rest ih => intro w; rw [List.foldl_cons, ih]; rfl

theorem mainLoop_deferred_close (c : Colors) (upload : Bool) (fz : String)
    (pods : List PodRun) :
    ∀ st : LoopState, (∀ e ∈ st.deferred, ∃ f, e = Event.close f) →
      ∀ e ∈ (mainLoop c upload fz st pods).deferred, ∃ f, e = Event.close f := by
  induction pods with
  | nil => intro st h; exact h
  | cons pr rest ih =>
    intro st h
    unfold mainLoop
    rw [List.foldl_cons]
    apply ih
    cases hs : skips fz pr.pod.Name with
    | true => rw [loopBody_skip c upload fz st pr hs]; exact h
    | false =>
      by_cases hmode : st.filename = "" ∧ upload = false
      · obtain ⟨hf, hu⟩ := hmode
        subst hu
        rw [loopBody_console c fz st pr hs hf]
        exact h
      · rw [loopBody_persist c upload fz st pr hs hmode]
        intro e he
        rcases List.mem_cons.1 he with h1 | h1
        · exact ⟨_, h1⟩
        · exact h e h1

/-- When neither the version flag is set nor a client call fails, `main` is
the run over the listed pods. -/
theorem main_run (c : Colors) (env : Cluster) (args : List Arg) (files : List (String × String))
    (pods : List PodRun) (hv : (parseFlags env args).printVersion = false)
    (hc : env.buildConfig (parseFlags env args).kubeconfig = none)
    (hcs : env.clientsetErr = none)
    (hl : env.listPods (if (parseFlags env args).namespace_ = "" then env.defaultNamespace
      else (parseFlags env args).namespace_) = .ok pods) :
    main c env args files =
      .ok (runPods c (parseFlags env args)
        (if (parseFlags env args).namespace_ = "" then env.defaultNamespace
          else (parseFlags env args).namespace_) pods (initWorld files)) := by
  unfold main
  simp only [hv, hc, hcs, hl]
  rfl

/-! ## Pacing (claim C8): proofs -/

theorem uploadEvents_filter_pacing (c : Colors) (h : HttpEnv) (filepath : String)
    (expires : Int) (w : World) :
    (uploadEvents c h filepath expires w).filter Event.isPacing = [Event.osOpen filepath] := by
  unfold uploadEvents warnEvents sendEvents
  cases w.files.lookup filepath <;>
    simp only [List.filter_cons, List.filter_append] <;>
    split_ifs <;> simp_all [Event.isPacing, Event.isOpen, Event.isSleep]

theorem loopBody_filter_pacing (c : Colors) (upload : Bool) (fz : String) (st : LoopState)
    (pr : PodRun) :
    (loopBody c upload fz st pr).world.trace.filter Event.isPacing =
      st.world.trace.filter Event.isPacing ++
        (if skips fz pr.pod.Name then []
         else if upload then
           [Event.osOpen (podpathOf (effName upload st.filename) pr.pod),
            Event.sleep (1 * 1000000000)]
         else []) := by
  cases hs : skips fz pr.pod.Name with
  | true => rw [loopBody_skip c upload fz st pr hs]; simp
  | false =>
    by_cases hmode : st.filename = "" ∧ upload = false
    · obtain ⟨hf, hu⟩ := hmode
      subst hu
      rw [loopBody_console c fz st pr hs hf]
      simp only [List.filter_append]
      unfold captureEvents
      cases pr.rawLogs with
      | error e => simp [List.filter_cons, Event.isPacing, Event.isOpen, Event.isSleep]
      | ok s =>
        simp only [if_true, List.filter_cons]
        rw [echoEvents_filter _ _ _ _ (fun _ => rfl)]
        simp [Event.isPacing, Event.isOpen, Event.isSleep]
    · rw [loopBody_persist_trace c upload fz st pr hs hmode]
      simp only [List.filter_append]
      have hw : (writeEvents c (effName upload st.filename) pr).filter Event.isPacing = [] := by
        unfold writeEvents
        cases pr.createErr <;>
          simp [List.filter_cons, Event.isPacing, Event.isOpen, Event.isSleep]
      rw [hw]
      cases upload
      · simp
      · simp only [if_true]
        unfold uploadStepEvents
        rw [List.filter_append, uploadEvents_filter_pacing]
        simp [List.filter_cons, Event.isPacing, Event.isOpen, Event.isSleep]

theorem filter_sleep_pacing (l : List Event) :
    l.filter Event.isSleep = (l.filter Event.isPacing).filter Event.isSleep := by
  rw [List.filter_filter]
  congr 1
  funext e
  cases e <;> simp [Event.isPacing, Event.isOpen, Event.isSleep]

theorem filter_sleep_attempts (f : PodRun → String) (n : Nat) (sel : List PodRun) :
    (sel.flatMap (fun pr => [Event.osOpen (f pr), Event.sleep n])).filter Event.isSleep =
      List.replicate sel.length (Event.sleep n) := by
  induction sel with
  | nil => rfl
  | cons pr rest ih =>
    rw [List.flatMap_cons, List.filter_append, ih]
    simp [List.filter_cons, Event.isSleep, List.replicate_succ]

/-- C8: among the calls of `os.Open` that start an upload attempt and the
calls of `time.Sleep`, a run over the listed pods adds, when upload is
requested, one attempt followed by one pause of one second for each selected
pod in listing order, and nothing when upload is not requested (console mode
and file mode); so the pauses added are as many as the selected pods when
upload is requested and none otherwise. -/
theorem C8_pause_after_each_upload (c : Colors) (fl : Flags) (ns : String)
    (pods : List PodRun) (w : World) :
    (runPods c fl ns pods w).trace.filter Event.isPacing =
      w.trace.filter Event.isPacing ++
        (if fl.upload then
          (pods.filter (fun pr => !skips fl.fuzzymode pr.pod.Name)).flatMap
            (fun pr => [Event.osOpen (podpathOf (effName fl.upload fl.filename) pr.pod),
                        Event.sleep (1 * 1000000000)])
         else []) ∧
    (runPods c fl ns pods w).trace.filter Event.isSleep =
      w.trace.filter Event.isSleep ++
        (if fl.upload then
          List.replicate (pods.filter (fun pr => !skips fl.fuzzymode pr.pod.Name)).length
            (Event.sleep (1 * 1000000000))
         else []) := by
  have hclose : ∀ e ∈ (mainLoop c fl.upload fl.fuzzymode
      { filename := fl.filename, deferred := [],
        world := w.emit (.print (headerLine c fl ns)) } pods).deferred,
      ∃ f, e = Event.close f :=
    mainLoop_deferred_close c fl.upload fl.fuzzymode pods _ (by simp)
  have hmain : (runPods c fl ns pods w).trace.filter Event.isPacing =
      w.trace.filter Event.isPacing ++
        (if fl.upload then
          (pods.filter (fun pr => !skips fl.fuzzymode pr.pod.Name)).flatMap
            (fun pr => [Event.osOpen (podpathOf (effName fl.upload fl.filename) pr.pod),
                        Event.sleep (1 * 1000000000)])
         else []) := by
    unfold runPods
    simp only [foldl_emit_trace, List.filter_append]
    have hd : (mainLoop c fl.upload fl.fuzzymode
        { filename := fl.filename, deferred := [],
          world := w.emit (.print (headerLine c fl ns)) } pods).deferred.filter
          Event.isPacing = [] := by
      rw [List.filter_eq_nil_iff]
      intro e he
      obtain ⟨f, hf⟩ := hclose e he
      subst hf
      simp [Event.isPacing, Event.isOpen, Event.isSleep]
    rw [hd, List.append_nil]
    rw [mainLoop_filter c fl.upload fl.fuzzymode Event.isPacing
      (fun pr => if skips fl.fuzzymode pr.pod.Name then []
        else if fl.upload then
          [Event.osOpen (podpathOf (effName fl.upload fl.filename) pr.pod),
           Event.sleep (1 * 1000000000)]
        else []) (effName fl.upload fl.filename)
      (fun st pr hst => by rw [loopBody_filter_pacing, hst]) pods _ rfl]
    simp only [emit_trace, List.filter_append]
    rw [flatMap_selected]
    cases fl.upload <;> simp [List.filter_cons, Event.isPacing, Event.isOpen, Event.isSleep]
  refine ⟨hmain, ?_⟩
  rw [filter_sleep_pacing, hmain, List.filter_append, ← filter_sleep_pacing]
  cases fl.upload
  · simp
  · simp only [if_true]
    rw [filter_sleep_attempts]

/-! ## Console mode (claim C9): proofs -/

theorem mainLoop_console (c : Colors) (fz : String) (pods : List PodRun) :
    ∀ st : LoopState, st.filename = "" →
      mainLoop c false fz st pods =
        { st with
          world := (pods.filter (fun pr => !skips fz pr.pod.Name)).foldl (consoleStep c)
            st.world } := by
  induction pods with
  | nil => intro st _; rfl
  | cons pr rest ih =>
    intro st hf
    unfold mainLoop
    rw [List.foldl_cons]
    cases hs : skips fz pr.pod.Name with
    | true =>
      rw [loopBody_skip c false fz st pr hs]
      have h := ih st hf
      unfold mainLoop at h
      rw [h]
      simp [List.filter_cons, hs]
    | false =>
      have hb : loopBody c false fz st pr = { st with world := consoleStep c st.world pr } := by
        simp [loopBody, hs, hf, consoleStep]
      have h := ih (loopBody c false fz st pr) (by rw [hb]; exact hf)
      unfold mainLoop at h
      rw [h, hb]
      simp [List.filter_cons, hs]

theorem consoleStep_files (c : Colors) (w : World) (pr : PodRun) :
    (consoleStep c w pr).files = w.files := by
  simp [consoleStep, getPodLogs_snd]

theorem consoleStep_filter (c : Colors) (w : World) (pr : PodRun) :
    (consoleStep c w pr).trace.filter Event.isOutputOp = w.trace.filter Event.isOutputOp := by
  simp only [consoleStep, getPodLogs_snd, emit_trace, List.filter_append]
  unfold captureEvents
  cases pr.rawLogs with
  | error e =>
    simp [List.filter_cons, Event.isOutputOp, Event.isFileOp, Event.isPost, Event.isSleep]
  | ok s =>
    simp only [if_true, List.filter_cons]
    rw [echoEvents_filter _ _ _ _ (fun _ => rfl)]
    simp [Event.isOutputOp, Event.isFileOp, Event.isPost, Event.isSleep]

theorem foldl_consoleStep (c : Colors) (sel : List PodRun) :
    ∀ w : World,
      (sel.foldl (consoleStep c) w).files = w.files ∧
      (sel.foldl (consoleStep c) w).trace.filter Event.isOutputOp =
        w.trace.filter Event.isOutputOp := by
  induction sel with
  | nil => intro w; exact ⟨rfl, rfl⟩
  | cons pr rest ih =>
    intro w
    rw [List.foldl_cons]
    obtain ⟨h1, h2⟩ := ih (consoleStep c w pr)
    exact ⟨by rw [h1, consoleStep_files], by rw [h2, consoleStep_filter]⟩

/-- C9: with no output file name and no upload requested, a run over the listed
pods is the header line followed, for each selected pod in listing order, by
`getPodLogs` with echo and the separator line; the files are left as they
were and the run adds no operation on the file system, no HTTP request and no
pause; and `getPodLogs` with echo, on a retrieved text, adds the request and
one tagged line for each non-empty line of the text. -/
theorem C9_console_mode_no_file_no_upload (c : Colors) (fl : Flags) (ns : String)
    (pods : List PodRun) (w : World) (hf : fl.filename = "") (hu : fl.upload = false) :
    runPods c fl ns pods w =
      (pods.filter (fun pr => !skips fl.fuzzymode pr.pod.Name)).foldl
        (fun w pr => (getPodLogs c pr.pod pr.rawLogs true w).2.emit (.print "---\n"))
        (w.emit (.print (headerLine c fl ns))) ∧
    (runPods c fl ns pods w).files = w.files ∧
    (runPods c fl ns pods w).trace.filter Event.isOutputOp =
      w.trace.filter Event.isOutputOp ∧
    (∀ (pod : Pod) (text : String) (w0 : World),
      (getPodLogs c pod (.ok text) true w0).2.trace =
        w0.trace ++ Event.getLogs pod.Namespace pod.Name ::
          ((stringsSplit text '\n').filter (fun m => !decide (m.length < 1))).map
            (fun m => Event.print
              (c.Purple ++ "[" ++ pod.Name ++ "]" ++ c.Reset ++ ": " ++ m ++ "\n"))) := by
  have hrun : runPods c fl ns pods w =
      (pods.filter (fun pr => !skips fl.fuzzymode pr.pod.Name)).foldl (consoleStep c)
        (w.emit (.print (headerLine c fl ns))) := by
    unfold runPods
    simp only [hu]
    rw [mainLoop_console c fl.fuzzymode pods _ hf]
    rfl
  obtain ⟨h1, h2⟩ := foldl_consoleStep c
    (pods.filter (fun pr => !skips fl.fuzzymode pr.pod.Name)) (w.emit (.print (headerLine c fl ns)))
  refine ⟨hrun, ?_, ?_, ?_⟩
  · rw [hrun, h1]; rfl
  · rw [hrun, h2]
    simp [List.filter_append, List.filter_cons, Event.isOutputOp, Event.isFileOp, Event.isPost,
      Event.isSleep]
  · intro pod text w0
    rw [getPodLogs_snd]
    rfl

/-- Witness of C9: pods web-1, web-2, cache-1 with the pattern w1 in console
mode; only the lines of web-1 are printed. -/
theorem C9_console_mode_witness :
    (runPods ⟨"", "", "", "", "", ""⟩ ⟨false, "", "ns1", "", false, "w1"⟩ "ns1"
      [⟨⟨"ns1", "web-1"⟩, .ok "a\n\nb\n", none, true, ⟨none, none, none, none, none, none, ""⟩⟩,
       ⟨⟨"ns1", "web-2"⟩, .ok "c", none, true, ⟨none, none, none, none, none, none, ""⟩⟩,
       ⟨⟨"ns1", "cache-1"⟩, .ok "d", none, true, ⟨none, none, none, none, none, none, ""⟩⟩]
      (initWorld [])).trace =
      [Event.print "INFO: Fetching Pod logs for ns1 namespace :\n",
       Event.getLogs "ns1" "web-1",
       Event.print "[web-1]: a\n",
       Event.print "[web-1]: b\n",
       Event.print "---\n"] :=
  (congrArg World.trace
    (C9_console_mode_no_file_no_upload ⟨"", "", "", "", "", ""⟩
      ⟨false, "", "ns1", "", false, "w1"⟩ "ns1"
      [⟨⟨"ns1", "web-1"⟩, .ok "a\n\nb\n", none, true, ⟨none, none, none, none, none, none, ""⟩⟩,
       ⟨⟨"ns1", "web-2"⟩, .ok "c", none, true, ⟨none, none, none, none, none, none, ""⟩⟩,
       ⟨⟨"ns1", "cache-1"⟩, .ok "d", none, true, ⟨none, none, none, none, none, none, ""⟩⟩]
      (initWorld []) rfl rfl).1).trans (by decide)

/-! ## The warning of `uploadFile` (claim C10): proofs -/

theorem uploadFile_count_warn (c : Colors) (h : HttpEnv) (filepath : String) (expires : Int)
    (w : World) :
    (uploadFile c h filepath expires w).2.trace.count (Event.print (warnMsg c)) =
      w.trace.count (Event.print (warnMsg c)) +
        (if w.fupServer = "" ∧ w.didIWarnAlready = false then 1 else 0) := by
  rw [uploadFile_snd]
  simp only [List.count_append]
  unfold uploadEvents warnEvents sendEvents
  cases w.files.lookup filepath <;>
    simp only [List.count_cons, List.count_append, List.count_nil] <;>
    split_ifs <;> simp_all

theorem uploadCalls_warned (c : Colors) (calls : List (HttpEnv × String × Int)) :
    ∀ w : World, w.didIWarnAlready = true →
      (uploadCalls c calls w).didIWarnAlready = true ∧
      (uploadCalls c calls w).trace.count (Event.print (warnMsg c)) =
        w.trace.count (Event.print (warnMsg c)) := by
  induction calls with
  | nil => intro w hw; exact ⟨hw, rfl⟩
  | cons x rest ih =>
    intro w hw
    have h1 : (uploadFile c x.1 x.2.1 x.2.2 w).2.didIWarnAlready = true := by
      rw [uploadFile_snd]; simp [hw]
    obtain ⟨h2, h3⟩ := ih _ h1
    unfold uploadCalls at h2 h3 ⊢
    rw [List.foldl_cons]
    refine ⟨h2, ?_⟩
    rw [h3, uploadFile_count_warn]
    simp [hw]

/-- C10: with no upload endpoint configured and the flag `didIWarnAlready`
false, the first call of `uploadFile` prints the warning once and sets the
flag, and a sequence of one or more calls prints it exactly once in all; once
the flag is true it stays true and no call prints the warning. -/
theorem C10_warning_printed_once (c : Colors) :
    (∀ (w : World) (x : HttpEnv × String × Int) (calls : List (HttpEnv × String × Int)),
      w.fupServer = "" → w.didIWarnAlready = false →
      (uploadFile c x.1 x.2.1 x.2.2 w).2.trace.count (Event.print (warnMsg c)) =
        w.trace.count (Event.print (warnMsg c)) + 1 ∧
      (uploadFile c x.1 x.2.1 x.2.2 w).2.didIWarnAlready = true ∧
      (uploadCalls c (x :: calls) w).trace.count (Event.print (warnMsg c)) =
        w.trace.count (Event.print (warnMsg c)) + 1) ∧
    (∀ (w : World) (calls : List (HttpEnv × String × Int)),
      w.didIWarnAlready = true →
      (uploadCalls c calls w).didIWarnAlready = true ∧
      (uploadCalls c calls w).trace.count (Event.print (warnMsg c)) =
        w.trace.count (Event.print (warnMsg c))) := by
  refine ⟨?_, fun w calls hw => uploadCalls_warned c calls w hw⟩
  intro w x calls hs hw
  have h1 : (uploadFile c x.1 x.2.1 x.2.2 w).2.trace.count (Event.print (warnMsg c)) =
      w.trace.count (Event.print (warnMsg c)) + 1 := by
    rw [uploadFile_count_warn]; simp [hs, hw]
  have h2 : (uploadFile c x.1 x.2.1 x.2.2 w).2.didIWarnAlready = true := by
    rw [uploadFile_snd]; simp [hs]
  refine ⟨h1, h2, ?_⟩
  have h3 := (uploadCalls_warned c calls _ h2).2
  unfold uploadCalls at h3 ⊢
  rw [List.foldl_cons, h3, h1]

/-- Witness of C10: three calls of `uploadFile` from the initial world print
the warning once. -/
theorem C10_warning_printed_once_witness :
    (uploadCalls ⟨"", "", "", "", "", ""⟩
      [(⟨none, none, none, none, none, none, "u1"⟩, "tmp/ns_tmp", 1),
       (⟨none, none, none, none, none, none, "u2"⟩, "tmp/ns_tmp", 1),
       (⟨none, none, none, none, none, none, "u3"⟩, "tmp/ns_tmp", 1)]
      (initWorld [("tmp/ns_tmp", "log")])).trace.count
        (Event.print (warnMsg ⟨"", "", "", "", "", ""⟩)) = 0 + 1 :=
  ((C10_warning_printed_once ⟨"", "", "", "", "", ""⟩).1 (initWorld [("tmp/ns_tmp", "log")])
    (⟨none, none, none, none, none, none, "u1"⟩, "tmp/ns_tmp", 1)
    [(⟨none, none, none, none, none, none, "u2"⟩, "tmp/ns_tmp", 1),
     (⟨none, none, none, none, none, none, "u3"⟩, "tmp/ns_tmp", 1)] rfl rfl).2.2

/-! ## Last write wins (claim C7) -/

theorem lookup_writeTo (files : List (String × String)) (path data : String) :
    (writeTo files path data).lookup path = some data := by
  simp [writeTo, List.lookup_cons]

theorem mainLoop_skipped (c : Colors) (upload : Bool) (fz : String) (post : List PodRun)
    (hpost : ∀ q ∈ post, skips fz q.pod.Name = true) (st : LoopState) :
    mainLoop c upload fz st post = st := by
  induction post with
  | nil => rfl
  | cons q rest ih =>
    unfold mainLoop
    rw [List.foldl_cons, loopBody_skip c upload fz st q (hpost q (List.mem_cons_self _ _))]
    exact ih (fun x hx => hpost x (List.mem_cons_of_mem _ hx))

theorem effName_of_ne (upload : Bool) (filename : String) (hf : filename ≠ "") :
    effName upload filename = filename := by
  unfold effName
  rw [if_neg (fun h => hf h.2)]

theorem filename_ne_of_effName (upload : Bool) (b filename : String) (hb : b ≠ "")
    (h : effName upload filename = b) : ¬ (filename = "" ∧ upload = false) := by
  rintro ⟨h1, h2⟩
  subst h1 h2
  exact hb h.symm

/-- C7: the path derived for a pod depends on the pod only through its
namespace, so two pods of one namespace get the same path; with an output
base name given, the calls of `os.WriteFile` of a run are one for each
selected pod, in listing order, on that path with the text captured for the
pod; and after the run the file at the path of the last selected pod holds the
text captured for that pod, when its write succeeded. -/
theorem C7_same_path_last_write_wins :
    (∀ (b : String) (p q : Pod), p.Namespace = q.Namespace → podpathOf b p = podpathOf b q) ∧
    (∀ (c : Colors) (fl : Flags) (ns : String) (pods : List PodRun) (w : World),
      fl.filename ≠ "" →
      (runPods c fl ns pods w).trace.filter Event.isWriteFile =
        w.trace.filter Event.isWriteFile ++
          (pods.filter (fun pr => !skips fl.fuzzymode pr.pod.Name)).map
            (fun pr => Event.writeFile (podpathOf fl.filename pr.pod)
              (capturedText pr.rawLogs) 0o644)) ∧
    (∀ (c : Colors) (fl : Flags) (ns : String) (pre post : List PodRun) (pr : PodRun)
      (w : World),
      fl.filename ≠ "" → skips fl.fuzzymode pr.pod.Name = false →
      (∀ q ∈ post, skips fl.fuzzymode q.pod.Name = true) → pr.writeOk = true →
      (runPods c fl ns (pre ++ pr :: post) w).files.lookup (podpathOf fl.filename pr.pod) =
        some (capturedText pr.rawLogs)) := by
  refine ⟨?_, ?_, ?_⟩
  · intro b p q h
    unfold podpathOf
    rw [h]
  · intro c fl ns pods w hb
    have hclose := mainLoop_deferred_close c fl.upload fl.fuzzymode pods
      { filename := fl.filename, deferred := [],
        world := w.emit (.print (headerLine c fl ns)) } (by simp)
    unfold runPods
    simp only [foldl_emit_trace, List.filter_append]
    have hd : (mainLoop c fl.upload fl.fuzzymode
        { filename := fl.filename, deferred := [],
          world := w.emit (.print (headerLine c fl ns)) } pods).deferred.filter
          Event.isWriteFile = [] := by
      rw [List.filter_eq_nil_iff]
      intro e he
      obtain ⟨f, hf⟩ := hclose e he
      subst hf
      simp [Event.isWriteFile]
    rw [hd, List.append_nil]
    rw [mainLoop_filter c fl.upload fl.fuzzymode Event.isWriteFile
      (fun pr => if skips fl.fuzzymode pr.pod.Name then []
        else [Event.writeFile (podpathOf fl.filename pr.pod) (capturedText pr.rawLogs) 0o644])
      fl.filename
      (fun st pr hst => by
        cases hs : skips fl.fuzzymode pr.pod.Name with
        | true => rw [loopBody_skip c fl.upload fl.fuzzymode st pr hs]; simp [hs]
        | false =>
          rw [loopBody_filter_writeFile c fl.upload fl.fuzzymode st pr hs
            (filename_ne_of_effName fl.upload fl.filename st.filename hb hst), hst]
          simp [hs])
      pods _ (effName_of_ne fl.upload fl.filename hb)]
    rw [flatMap_selected, flatMap_single]
    simp [List.filter_cons, Event.isWriteFile]
  · intro c fl ns pre post pr w hb hs hpost hw
    unfold runPods
    simp only [foldl_emit_files]
    unfold mainLoop
    rw [List.foldl_append, List.foldl_cons]
    have hskip := mainLoop_skipped c fl.upload fl.fuzzymode post hpost
    unfold mainLoop at hskip
    rw [hskip]
    have hname := mainLoop_effName c fl.upload fl.fuzzymode pre
      { filename := fl.filename, deferred := [],
        world := w.emit (.print (headerLine c fl ns)) }
    unfold mainLoop at hname
    simp only at hname
    rw [effName_of_ne fl.upload fl.filename hb] at hname
    rw [loopBody_persist_files c fl.upload fl.fuzzymode _ pr hs
      (filename_ne_of_effName fl.upload fl.filename _ hb hname), hname]
    unfold persistFiles
    simp only [hw, if_true]
    exact lookup_writeTo _ _ _

/-- Witness of C7: two selected pods of namespace ns1 with the base name
logs.txt; the file holds the text of the second. -/
theorem C7_same_path_last_write_wins_witness :
    (runPods ⟨"", "", "", "", "", ""⟩ ⟨false, "", "ns1", "logs.txt", false, ""⟩ "ns1"
      ([⟨⟨"ns1", "web-1"⟩, .ok "first", none, true, ⟨none, none, none, none, none, none, ""⟩⟩] ++
        ⟨⟨"ns1", "web-2"⟩, .ok "second", none, true, ⟨none, none, none, none, none, none, ""⟩⟩ ::
        [])
      (initWorld [])).files.lookup "logs/ns1_logs.txt" = some "second" :=
  C7_same_path_last_write_wins.2.2 ⟨"", "", "", "", "", ""⟩
    ⟨false, "", "ns1", "logs.txt", false, ""⟩ "ns1"
    [⟨⟨"ns1", "web-1"⟩, .ok "first", none, true, ⟨none, none, none, none, none, none, ""⟩⟩] []
    ⟨⟨"ns1", "web-2"⟩, .ok "second", none, true, ⟨none, none, none, none, none, none, ""⟩⟩
    (initWorld []) (by decide) (by decide) (by simp) rfl

/-! ## The file of an upload without a name (claim C3) and the upload server (claim C4): proofs -/

theorem loopBody_filter_remove (c : Colors) (upload : Bool) (fz : String) (st : LoopState)
    (pr : PodRun) :
    (loopBody c upload fz st pr).world.trace.filter Event.isRemove =
      st.world.trace.filter Event.isRemove := by
  cases hs : skips fz pr.pod.Name with
  | true => rw [loopBody_skip c upload fz st pr hs]
  | false =>
    by_cases hmode : st.filename = "" ∧ upload = false
    · obtain ⟨hf, hu⟩ := hmode
      subst hu
      rw [loopBody_console c fz st pr hs hf]
      simp only [List.filter_append]
      unfold captureEvents
      cases pr.rawLogs with
      | error e => simp [List.filter_cons, Event.isRemove]
      | ok s =>
        simp only [if_true, List.filter_cons]
        rw [echoEvents_filter _ _ _ _ (fun _ => rfl)]
        simp [Event.isRemove]
    · rw [loopBody_persist_trace c upload fz st pr hs hmode]
      simp only [List.filter_append]
      have hw : (writeEvents c (effName upload st.filename) pr).filter Event.isRemove = [] := by
        unfold writeEvents
        cases pr.createErr <;> simp [List.filter_cons, Event.isRemove]
      rw [hw]
      cases upload
      · simp
      · simp only [if_true]
        rw [uploadStepEvents_filter _ _ _ _ _ (fun _ => rfl) (fun _ => rfl)
          (fun _ _ _ _ => rfl) (fun _ => rfl)]
        simp

/-- In no run does the loop of `main` call `os.Remove`: line 178 tests
`filename` for the empty string inside the branch of line 165, where it is not
empty. -/
theorem runPods_never_removes (c : Colors) (fl : Flags) (ns : String) (pods : List PodRun)
    (w : World) :
    (runPods c fl ns pods w).trace.filter Event.isRemove = w.trace.filter Event.isRemove := by
  have hclose := mainLoop_deferred_close c fl.upload fl.fuzzymode pods
    { filename := fl.filename, deferred := [],
      world := w.emit (.print (headerLine c fl ns)) } (by simp)
  unfold runPods
  simp only [foldl_emit_trace, List.filter_append]
  have hd : (mainLoop c fl.upload fl.fuzzymode
      { filename := fl.filename, deferred := [],
        world := w.emit (.print (headerLine c fl ns)) } pods).deferred.filter
        Event.isRemove = [] := by
    rw [List.filter_eq_nil_iff]
    intro e he
    obtain ⟨f, hf⟩ := hclose e he
    subst hf
    simp [Event.isRemove]
  rw [hd, List.append_nil]
  rw [mainLoop_filter c fl.upload fl.fuzzymode Event.isRemove (fun _ => [])
    (effName fl.upload fl.filename)
    (fun st pr _ => by rw [loopBody_filter_remove]; simp) pods _ rfl]
  simp [List.filter_cons, Event.isRemove]

theorem loopBody_fupServer (c : Colors) (upload : Bool) (fz : String) (st : LoopState)
    (pr : PodRun) : (loopBody c upload fz st pr).world.fupServer = st.world.fupServer := by
  cases hs : skips fz pr.pod.Name with
  | true => rw [loopBody_skip c upload fz st pr hs]
  | false =>
    by_cases hmode : st.filename = "" ∧ upload = false
    · obtain ⟨hf, hu⟩ := hmode
      subst hu
      rw [loopBody_console c fz st pr hs hf]
    · rw [loopBody_persist c upload fz st pr hs hmode]
      cases upload
      · simp [writtenWorld]
      · simp only [if_true]
        rw [uploadStep_eq _ _ _ _ (effName_ne true st.filename hmode)]
        simp [writtenWorld]

theorem foldl_emit_fupServer (evs : List Event) :
    ∀ w : World, (evs.foldl World.emit w).fupServer = w.fupServer := by
  induction evs with
  | nil => intro w; rfl
  | cons e rest ih => intro w; rw [List.foldl_cons, ih]; rfl

theorem runPods_fupServer (c : Colors) (fl : Flags) (ns : String) (pods : List PodRun)
    (w : World) : (runPods c fl ns pods w).fupServer = w.fupServer := by
  unfold runPods
  simp only [foldl_emit_fupServer]
  have h : ∀ st : LoopState,
      (mainLoop c fl.upload fl.fuzzymode st pods).world.fupServer = st.world.fupServer := by
    induction pods with
    | nil => intro st; rfl
    | cons pr rest ih =>
      intro st
      have h1 := ih (loopBody c fl.upload fl.fuzzymode st pr)
      unfold mainLoop at h1 ⊢
      rw [List.foldl_cons, h1, loopBody_fupServer]
  rw [h]
  rfl

/-- Whatever the flags, `fupServer` is empty when `main` returns: no flag is
bound to it, so every call of `uploadFile` takes the default server. -/
theorem main_fupServer_empty (c : Colors) (env : Cluster) (args : List Arg)
    (files : List (String × String)) (w : World) (h : main c env args files = .ok w) :
    w.fupServer = "" ∧ ∀ w0 : World, w0.fupServer = w.fupServer → postUrl w0 = "https://0x0.st" := by
  have h1 : w.fupServer = "" := by
    unfold main at h
    simp only at h
    split at h
    · injection h with h; subst h; rfl
    · split at h
      · cases h
      · split at h
        · cases h
        · split at h
          · cases h
          · injection h with h
            subst h
            rw [runPods_fupServer]
            rfl
  refine ⟨h1, ?_⟩
  intro w0 h0
  unfold postUrl
  rw [h0, h1]
  rfl

/-- C3, the code against the claim: the run `-u` (upload requested, no output
file name) on one pod whose upload succeeds ends with the file tmp/ns1_tmp
still in place and without any call of `os.Remove`. -/
theorem C3_placeholder_file_is_kept :
    main plainColors oneGoodPod [.u true] [] =
      .ok
        { fupServer := ""
          didIWarnAlready := true
          files := [("tmp/ns1_tmp", "hello")]
          trace :=
            [Event.print "INFO: Writing Pod logs for ns1 namespace to :\n",
             Event.mkdir "tmp" 0o755,
             Event.create "tmp/ns1_tmp",
             Event.getLogs "ns1" "web-1",
             Event.writeFile "tmp/ns1_tmp" "hello" 0o644,
             Event.osOpen "tmp/ns1_tmp",
             Event.print (warnMsg plainColors),
             Event.httpPost "https://0x0.st" "tmp/ns1_tmp" "hello" "1",
             Event.print " - ( web-1 ): https://0x0.st/abc.txt\n\n",
             Event.sleep 1000000000,
             Event.close (some "tmp/ns1_tmp")] } := by
  rfl

/-- C4, the code against the claim: the run `-u -s https://paste.example` posts
to https://0x0.st; the value of `-s` has gone to `filename` and `fupServer`
is still empty. -/
theorem C4_server_flag_is_not_used :
    main plainColors oneGoodPod [.u true, .s "https://paste.example"] [] =
      .ok
        { fupServer := ""
          didIWarnAlready := true
          files := [("https://paste/ns1_https://paste.example", "hello")]
          trace :=
            [Event.print "INFO: Writing Pod logs for ns1 namespace to https://paste.example:\n",
             Event.mkdir "https://paste" 0o755,
             Event.create "https://paste/ns1_https://paste.example",
             Event.getLogs "ns1" "web-1",
             Event.writeFile "https://paste/ns1_https://paste.example" "hello" 0o644,
             Event.osOpen "https://paste/ns1_https://paste.example",
             Event.print (warnMsg plainColors),
             Event.httpPost "https://0x0.st" "https://paste/ns1_https://paste.example" "hello" "1",
             Event.print " - ( web-1 ): https://0x0.st/abc.txt\n\n",
             Event.sleep 1000000000,
             Event.close (some "https://paste/ns1_https://paste.example")] } := by
  rfl

end Kubelog
